import Mathlib

/-!
Verification of the transcript-extraction script.

The definitions below are a shallow embedding of the functions in
extract.py: subtitle events and format descriptors are structures whose
fields are Option-valued (a Python dict key may be absent), the rendering
loops become folds over lists, and code that can raise a KeyError returns
an Except value.  External effects (the HTTP subtitle download, the audio
download, the speech-to-text call, the file system) are modelled by
explicit parameters and an action trace in the result.
-/

/-- A subtitle segment: a dict that may or may not carry a utf8 key. -/
structure Seg where
  utf8 : Option String
deriving DecidableEq, Repr

/-- A subtitle event: a dict with optional tStartMs and segs keys. -/
structure SubEvent where
  tStartMs : Option Nat
  segs : Option (List Seg)
deriving DecidableEq, Repr

/-- A subtitle format descriptor as supplied by the provider: a dict whose
ext and url keys may be absent (absence makes the bracket lookup raise). -/
structure Desc where
  ext : Option String
  url : Option String
deriving DecidableEq, Repr

/-- Python str.strip restricted to ASCII whitespace: drop whitespace
characters from both ends of the string. -/
def pyStrip (s : String) : String :=
  ⟨((s.data.dropWhile Char.isWhitespace).reverse.dropWhile Char.isWhitespace).reverse⟩

/-- Python format spec 02d on a natural number: zero-pad to two digits. -/
def pyFormat02 (n : Nat) : String :=
  if n < 10 then "0" ++ toString n else toString n

/-- Inner loop shared by both rendering modes of process_transcript:
for seg in segs, if utf8 in seg, append seg utf8 stripped. -/
def segLoop (segs : List Seg) : List String :=
  segs.foldl (fun a seg =>
    match seg.utf8 with
    | none => a
    | some u => a ++ [pyStrip u]) []

/-- Text-mode loop of process_transcript (lines 116-121): for each event
with a segs key, append the stripped utf8 of each utf8-keyed segment. -/
def textPartsLoop (events : List SubEvent) : List String :=
  events.foldl (fun acc ev =>
    match ev.segs with
    | none => acc
    | some ss => acc ++ segLoop ss) []

/-- Text-mode rendering: single-space join of the collected parts. -/
def renderText (events : List SubEvent) : String :=
  String.intercalate " " (textPartsLoop events)

/-- Markdown-mode loop of process_transcript (lines 126-146): for each
event with a segs key, compute the timestamp from tStartMs (default 0),
collect the stripped utf8 segment texts, and emit a bracketed line when
the collected list is non-empty (Python list truthiness). -/
def mdLinesLoop (events : List SubEvent) : List String :=
  events.foldl (fun acc ev =>
    match ev.segs with
    | none => acc
    | some ss =>
      let start_time := (ev.tStartMs.getD 0) / 1000
      let hours := start_time / 3600
      let minutes := (start_time % 3600) / 60
      let seconds := start_time % 60
      let timestamp := pyFormat02 hours ++ ":" ++ pyFormat02 minutes ++ ":" ++ pyFormat02 seconds
      let text_parts := segLoop ss
      if text_parts ≠ [] then
        acc ++ ["[" ++ timestamp ++ "] " ++ String.intercalate " " text_parts]
      else acc) []

/-- Markdown-mode rendering: blank-line join of the emitted lines. -/
def renderMarkdown (events : List SubEvent) : String :=
  String.intercalate "\n\n" (mdLinesLoop events)

/-- A download call recorded in the trace: the url and format arguments
passed to download_subtitles. -/
abbrev DlCall := String × String

/-- The generator expression in process_transcript line 109: first
descriptor whose ext lookup equals json3.  The bracket lookup raises a
KeyError when a descriptor reached before a match lacks the ext key. -/
def findJson3 : List Desc → Except String (Option Desc)
  | [] => .ok none
  | d :: ds =>
    match d.ext with
    | none => .error "KeyError: ext"
    | some e => if e = "json3" then .ok (some d) else findJson3 ds

/-- process_transcript (lines 98-150).  The subtitle downloader is a
parameter dl taking the url and the format string and returning the
parsed events list, or none when the download or parse fails.  The result
carries the rendered string together with the list of downloader calls
made; a KeyError from a dict bracket lookup surfaces as an error value. -/
def process_transcript (dl : String → String → Option (List SubEvent))
    (subtitle_data : List Desc) (format : String) :
    Except String (String × List DlCall) :=
  if subtitle_data = [] then .ok ("", [])
  else
    match findJson3 subtitle_data with
    | .error e => .error e
    | .ok none => .ok ("", [])
    | .ok (some json3_format) =>
      match json3_format.url with
      | none => .error "KeyError: url"
      | some u =>
        let subtitle_content := dl u "json3"
        let calls := [(u, "json3")]
        match subtitle_content with
        | none => .ok ("", calls)
        | some events =>
          if events = [] then .ok ("", calls)
          else if format = "text" then .ok (renderText events, calls)
          else if format = "markdown" then .ok (renderMarkdown events, calls)
          else .ok ("", calls)

/-- The provider response consumed by get_youtube_content: every field the
code reads with .get, each possibly absent.  The rating field of the
response is a number; it is only copied, never computed with, so it is
modelled as a rational.  Only the en entries of the subtitles and
automatic_captions dicts are consulted by the code, so the model keeps
just those. -/
structure VideoInfo where
  id : Option String
  thumbnail : Option String
  description : Option String
  duration : Option Nat
  view_count : Option Nat
  uploader : Option String
  channel_id : Option String
  channel_url : Option String
  upload_date : Option String
  average_rating : Option Rat
  tags : Option (List String)
  age_limit : Option Nat
  subtitles_en : Option (List Desc)
  automatic_captions_en : Option (List Desc)
deriving DecidableEq

/-- The normalized metadata record assembled at lines 167-180. -/
structure ProcessedInfo where
  video_id : Option String
  thumbnail_url : Option String
  description : String
  length : Nat
  views : Nat
  author : String
  channel_id : Option String
  channel_url : Option String
  publish_date : Option String
  rating : Rat
  keywords : List String
  age_restricted : Bool
deriving DecidableEq

/-- Metadata assembly (lines 167-180): each output field is a .get lookup
with the default written in the source. -/
def assemble_metadata (v : VideoInfo) : ProcessedInfo :=
  { video_id := v.id
    thumbnail_url := v.thumbnail
    description := v.description.getD ""
    length := v.duration.getD 0
    views := v.view_count.getD 0
    author := v.uploader.getD ""
    channel_id := v.channel_id
    channel_url := v.channel_url
    publish_date := v.upload_date
    rating := v.average_rating.getD 0
    keywords := v.tags.getD []
    age_restricted := decide (v.age_limit.getD 0 > 0) }

/-- Outcome of get_youtube_content: either the processed record with its
transcript fields, or the error dict built by the top-level except. -/
inductive ContentResult where
  | record (meta : ProcessedInfo) (transcript : Option String)
      (transcript_source : Option String)
  | errorRecord (msg : String)
deriving DecidableEq

/-- get_youtube_content (lines 152-206).  The provider call is a
parameter: ok carries the extracted info, error an exception message.
Any exception inside the try, including a KeyError raised by
process_transcript, is converted to the error dict. -/
def get_youtube_content (dl : String → String → Option (List SubEvent))
    (provider : Except String VideoInfo) (transcript_format : String) :
    ContentResult :=
  match provider with
  | .error e => .errorRecord ("Error processing video: " ++ e)
  | .ok video_info =>
    let processed_info := assemble_metadata video_info
    match video_info.subtitles_en with
    | some subtitle_data =>
      match process_transcript dl subtitle_data transcript_format with
      | .error e => .errorRecord ("Error processing video: " ++ e)
      | .ok (t, _) => .record processed_info (some t) (some "manual")
    | none =>
      match video_info.automatic_captions_en with
      | some subtitle_data =>
        match process_transcript dl subtitle_data transcript_format with
        | .error e => .errorRecord ("Error processing video: " ++ e)
        | .ok (t, _) => .record processed_info (some t) (some "auto-generated")
      | none => .record processed_info none none

/-- The installation-guidance message built at lines 31-34 when the ffmpeg
probe fails. -/
def ffmpegGuidance : String :=
  "FFmpeg is not installed. Please install FFmpeg first:\n" ++
  "- On Ubuntu/Debian: sudo apt-get install ffmpeg\n" ++
  "- On MacOS: brew install ffmpeg\n" ++
  "- On Windows: Download from https://ffmpeg.org/download.html"

/-- Whether the first character list is a prefix of the second. -/
def charsPrefix : List Char → List Char → Bool
  | [], _ => true
  | _ :: _, [] => false
  | a :: as, b :: bs => a = b && charsPrefix as bs

/-- Whether the first character list occurs inside the second. -/
def charsInfix (pat : List Char) : List Char → Bool
  | [] => charsPrefix pat []
  | c :: cs => charsPrefix pat (c :: cs) || charsInfix pat cs

/-- Boolean substring test used to state that a message contains a given
piece of guidance text. -/
def strContains (s pat : String) : Bool :=
  charsInfix pat.data s.data

/-- The dict returned by get_transcription_with_whisper. -/
structure WhisperResult where
  success : Bool
  transcription : Option String
  error : Option String
deriving DecidableEq

/-- The environment the whisper flow runs in: the outcome of the ffmpeg
version probe, whether temp_audio.mp3 already exists beforehand, the
outcome of the audio download (ok writes temp_audio.mp3; an exception may
or may not leave a partial file behind), and the outcome of the Whisper
parse call. -/
structure WhisperWorld where
  ffmpeg_ok : Bool
  tempExists0 : Bool
  download : Except String Unit
  downloadLeavesFile : Bool
  parse : Except String String

/-- Trace of the whisper flow: external service actions performed in
order, and whether temp_audio.mp3 exists when the function returns. -/
structure WhisperTrace where
  actions : List String
  tempExists : Bool
deriving DecidableEq

/-- The cleanup step at lines 70-71: remove temp_audio.mp3 when it
exists.  The argument and the result are the existence of the file. -/
def cleanupTemp (exists0 : Bool) : Bool :=
  if exists0 then false else exists0

/-- get_transcription_with_whisper (lines 26-75), returning the result
dict together with the action trace.  The probe failure returns before
any external action; the try block downloads the audio (writing
temp_audio.mp3), parses it with Whisper, and removes the file at line 61;
the except block runs the conditional cleanup of lines 70-71. -/
def get_transcription_with_whisper (w : WhisperWorld) :
    WhisperResult × WhisperTrace :=
  if !w.ffmpeg_ok then
    ({ success := false, transcription := none, error := some ffmpegGuidance },
     { actions := [], tempExists := w.tempExists0 })
  else
    match w.download with
    | .error e =>
      ({ success := false, transcription := none,
         error := some ("Failed to process video: " ++ e) },
       { actions := ["download_audio"],
         tempExists := cleanupTemp w.downloadLeavesFile })
    | .ok _ =>
      match w.parse with
      | .error e =>
        ({ success := false, transcription := none,
           error := some ("Failed to process video: " ++ e) },
         { actions := ["download_audio", "whisper_parse"],
           tempExists := cleanupTemp true })
      | .ok t =>
        ({ success := true, transcription := some t, error := none },
         { actions := ["download_audio", "whisper_parse"],
           tempExists := false })

/-- Python truthiness of the os.getenv result: None and the empty string
are falsy. -/
def envTruthy : Option String → Bool
  | none => false
  | some s => s ≠ ""

/-- What the main block prints before exiting. -/
inductive CliPrint where
  | keyError
  | whisperRecord (r : WhisperResult)
  | contentRecord (r : ContentResult)
deriving DecidableEq

/-- Exit code and printed output of one CLI invocation. -/
structure CliOutcome where
  exitCode : Nat
  printed : CliPrint
deriving DecidableEq

/-- The main block (lines 236-260) after argparse: dispatch on the method
argument, guard the whisper path on the API key (exit(1) after printing
the error message when the key is falsy), otherwise print the flow result
and fall off the end of the script (exit code 0). -/
def cliMain (method transcript_format : String) (openai_key : Option String)
    (w : WhisperWorld) (dl : String → String → Option (List SubEvent))
    (provider : Except String VideoInfo) : CliOutcome :=
  if method = "whisper" then
    if !envTruthy openai_key then
      { exitCode := 1, printed := .keyError }
    else
      { exitCode := 0,
        printed := .whisperRecord (get_transcription_with_whisper w).1 }
  else
    { exitCode := 0,
      printed := .contentRecord (get_youtube_content dl provider transcript_format) }

/-- Stripped utf8 texts of a segment list, written as structural
recursion: a segment without a utf8 key contributes nothing, every
utf8-keyed segment contributes its stripped text. -/
def segsTexts : List Seg → List String
  | [] => []
  | s :: rest =>
    (match s.utf8 with
     | none => []
     | some u => [pyStrip u]) ++ segsTexts rest

/-- Flat ordered text parts of an event list, event order then segment
order; an event without a segs key contributes nothing. -/
def textPartsSpec : List SubEvent → List String
  | [] => []
  | ev :: rest =>
    (match ev.segs with
     | none => []
     | some ss => segsTexts ss) ++ textPartsSpec rest

/-- Modelled from the words of claim C1: text rendering that keeps only
segments whose utf8 string is non-empty, strips them, and joins with a
single space. -/
def segsTextsNonEmptyC1 : List Seg → List String
  | [] => []
  | s :: rest =>
    (match s.utf8 with
     | none => []
     | some u => if u ≠ "" then [pyStrip u] else []) ++ segsTextsNonEmptyC1 rest

/-- Modelled from the words of claim C1: the full text-mode render with
the non-empty filter. -/
def renderTextClaimC1 (events : List SubEvent) : String :=
  String.intercalate " "
    (events.foldr (fun ev acc =>
      (match ev.segs with
       | none => []
       | some ss => segsTextsNonEmptyC1 ss) ++ acc) [])

/-- Zero-padding of a field to two digits, as the claims word it. -/
def pad2C (n : Nat) : String :=
  if n < 10 then "0" ++ toString n else toString n

/-- Timestamp of an event as the claims word it: start_time is the floor
of tStartMs over 1000 with a missing tStartMs defaulting to 0, rendered
as three zero-padded two-digit fields with hours unbounded. -/
def tsOf (ev : SubEvent) : String :=
  let start_time := (ev.tStartMs.getD 0) / 1000
  pad2C (start_time / 3600) ++ ":" ++ pad2C ((start_time % 3600) / 60) ++ ":" ++
    pad2C (start_time % 60)

/-- Markdown line of a single event: none when the event has no segs key
or no utf8-keyed segment, otherwise the bracketed timestamp followed by
the single-space join of the stripped segment texts. -/
def mdLineOf (ev : SubEvent) : Option String :=
  match ev.segs with
  | none => none
  | some ss =>
    let parts := segsTexts ss
    if parts = [] then none
    else some ("[" ++ tsOf ev ++ "] " ++ String.intercalate " " parts)

theorem segLoop_foldl_eq (ss : List Seg) :
    ∀ a : List String,
      ss.foldl (fun a seg =>
        match seg.utf8 with
        | none => a
        | some u => a ++ [pyStrip u]) a = a ++ segsTexts ss := by
  induction ss with
  | nil => intro a; simp [segsTexts]
  | cons s rest ih =>
    intro a
    cases h : s.utf8 with
    | none => simp [List.foldl, h, segsTexts, ih]
    | some u => simp [List.foldl, h, segsTexts, ih]

theorem segLoop_eq (ss : List Seg) : segLoop ss = segsTexts ss := by
  have := segLoop_foldl_eq ss []
  simpa [segLoop] using this

theorem textPartsLoop_eq (events : List SubEvent) :
    textPartsLoop events = textPartsSpec events := by
  suffices h : ∀ a : List String,
      events.foldl (fun acc ev =>
        match ev.segs with
        | none => acc
        | some ss => acc ++ segLoop ss) a = a ++ textPartsSpec events by
    simpa [textPartsLoop] using h []
  induction events with
  | nil => intro a; simp [textPartsSpec]
  | cons ev rest ih =>
    intro a
    cases h : ev.segs with
    | none => simp [List.foldl, h, textPartsSpec, ih]
    | some ss =>
      simp only [List.foldl_cons, h, textPartsSpec]
      rw [ih (a ++ segLoop ss), segLoop_eq, List.append_assoc]


theorem foldl_accum (f : List String → SubEvent → List String)
    (g : SubEvent → Option String)
    (hf : ∀ acc ev, f acc ev = acc ++ (g ev).toList) :
    ∀ (a : List String) (events : List SubEvent),
      List.foldl f a events = a ++ events.filterMap g := by
  intro a events
  induction events generalizing a with
  | nil => simp
  | cons ev rest ih =>
    rw [List.foldl_cons, hf, ih, List.filterMap_cons]
    cases hg : g ev <;> simp [hg, List.append_assoc]

theorem mdLinesLoop_eq (events : List SubEvent) :
    mdLinesLoop events = events.filterMap mdLineOf := by
  have hf : ∀ (acc : List String) (ev : SubEvent),
      (match ev.segs with
       | none => acc
       | some ss =>
         let start_time := (ev.tStartMs.getD 0) / 1000
         let hours := start_time / 3600
         let minutes := (start_time % 3600) / 60
         let seconds := start_time % 60
         let timestamp := pyFormat02 hours ++ ":" ++ pyFormat02 minutes ++ ":" ++
           pyFormat02 seconds
         let text_parts := segLoop ss
         if text_parts ≠ [] then
           acc ++ ["[" ++ timestamp ++ "] " ++ String.intercalate " " text_parts]
         else acc) = acc ++ (mdLineOf ev).toList := by
    intro acc ev
    cases h : ev.segs with
    | none => simp [mdLineOf, h]
    | some ss =>
      by_cases hp : segsTexts ss = []
      · simp [mdLineOf, h, hp, segLoop_eq]
      · simp [mdLineOf, h, hp, segLoop_eq, tsOf, pad2C, pyFormat02]
  have h := foldl_accum _ mdLineOf hf [] events
  simpa [mdLinesLoop] using h

/-- C1, counterexample.  The claim says text mode joins exactly the
segments whose utf8 is non-empty; the code appends the stripped text of
every utf8-keyed segment, so a segment with an empty utf8 still
contributes an element to the join and shifts the spacing: on one event
with segments utf8 empty and utf8 Hi the code renders a leading space
while the claimed filter renders none. -/
theorem c1_counterexample :
    renderText [⟨none, some [⟨some ""⟩, ⟨some "Hi"⟩]⟩] = " Hi" ∧
    renderTextClaimC1 [⟨none, some [⟨some ""⟩, ⟨some "Hi"⟩]⟩] = "Hi" ∧
    renderText [⟨none, some [⟨some ""⟩, ⟨some "Hi"⟩]⟩] ≠
      renderTextClaimC1 [⟨none, some [⟨some ""⟩, ⟨some "Hi"⟩]⟩] := by
  decide

/-- C1, amended.  In text mode the renderer returns the single-space join
of the whitespace-stripped utf8 strings of every segment that carries a
utf8 key (no non-emptiness filter), in event order then segment order;
events without a segs key and segments without a utf8 key contribute
nothing, and the empty event sequence renders to the empty string. -/
theorem c1_text_render_amended :
    (∀ events : List SubEvent,
      renderText events = String.intercalate " " (textPartsSpec events)) ∧
    renderText [] = "" := by
  constructor
  · intro events
    simp [renderText, textPartsLoop_eq]
  · decide

/-- C2, counterexample.  The claim says an event whose segments yield
zero non-empty stripped utf8 strings emits no markdown line; on an event
with one whitespace-only segment every stripped text is empty, yet the
code emits the line consisting of the bracketed timestamp and a trailing
space, because the emission test is list non-emptiness, not text
non-emptiness. -/
theorem c2_counterexample :
    (segsTexts [⟨some " "⟩]).all (fun s => s == "") = true ∧
    renderMarkdown [⟨none, some [⟨some " "⟩]⟩] = "[00:00:00] " ∧
    renderMarkdown [⟨none, some [⟨some " "⟩]⟩] ≠ "" := by
  decide

/-- C2, amended.  In markdown mode an event emits no line exactly when it
has no segs key or none of its segments carries a utf8 key; an event with
at least one utf8-keyed segment emits a line even when all its stripped
texts are empty.  The emitted lines are joined with exactly one blank
line between them, with no leading or trailing blank line, so for two
events where one has empty segs and the other has valid text exactly one
line is produced. -/
theorem c2_markdown_gate_amended :
    (∀ events : List SubEvent,
      renderMarkdown events = String.intercalate "\n\n" (events.filterMap mdLineOf)) ∧
    renderMarkdown [⟨some 0, some []⟩, ⟨some 5000, some [⟨some "valid text"⟩]⟩] =
      "[00:00:05] valid text" := by
  constructor
  · intro events
    simp [renderMarkdown, mdLinesLoop_eq]
  · decide

/-- C3, confirmed.  Every emitted markdown line equals the bracketed
HH:MM:SS timestamp, a space, and the single-space join of the stripped
segment texts of its event, where start_time is the floor of tStartMs
over 1000 (a missing tStartMs defaults to 0) and the three fields are
zero-padded to two digits with hours unbounded; in particular tStartMs
65000 with one segment Hello renders to the line 00:01:05 Hello in
brackets. -/
theorem c3_markdown_line_format :
    (∀ (events : List SubEvent) (line : String), line ∈ mdLinesLoop events →
      ∃ ev ss, ev ∈ events ∧ ev.segs = some ss ∧ segsTexts ss ≠ [] ∧
        line = "[" ++ tsOf ev ++ "] " ++ String.intercalate " " (segsTexts ss)) ∧
    renderMarkdown [⟨some 65000, some [⟨some "Hello"⟩]⟩] = "[00:01:05] Hello" := by
  constructor
  · intro events line hline
    rw [mdLinesLoop_eq] at hline
    obtain ⟨ev, hev, hsome⟩ := List.mem_filterMap.mp hline
    cases h : ev.segs with
    | none => simp [mdLineOf, h] at hsome
    | some ss =>
      by_cases hp : segsTexts ss = []
      · simp [mdLineOf, h, hp] at hsome
      · simp [mdLineOf, h, hp] at hsome
        exact ⟨ev, ss, hev, h, hp, hsome.symm⟩
  · decide

/-- C3 witness: the general part applied to the concrete event list of
the example line. -/
theorem c3_markdown_line_format_witness :
    ∃ ev ss, ev ∈ [(⟨some 65000, some [⟨some "Hello"⟩]⟩ : SubEvent)] ∧
      ev.segs = some ss ∧ segsTexts ss ≠ [] ∧
      "[00:01:05] Hello" = "[" ++ tsOf ev ++ "] " ++
        String.intercalate " " (segsTexts ss) :=
  c3_markdown_line_format.1 [⟨some 65000, some [⟨some "Hello"⟩]⟩]
    "[00:01:05] Hello" (by decide)

theorem findJson3_wf (data : List Desc) (hwf : ∀ d ∈ data, d.ext.isSome) :
    findJson3 data = .ok (data.find? (fun d => d.ext == some "json3")) := by
  induction data with
  | nil => simp [findJson3]
  | cons d ds ih =>
    obtain ⟨e, he⟩ := Option.isSome_iff_exists.mp (hwf d (List.mem_cons_self d ds))
    have ih' := ih (fun x hx => hwf x (List.mem_cons_of_mem d hx))
    by_cases hj : e = "json3"
    · simp [findJson3, he, hj, List.find?]
    · have hb : (e == "json3") = false := by simp [hj]
      simp [findJson3, he, hj, List.find?, ih', hb]

/-- C4, confirmed.  Over well-formed descriptors (both keys present, as
the data model of the spec requires), process_transcript selects the
first descriptor whose ext equals json3 and performs exactly one
downloader call, with that descriptor url and the string json3; when no
descriptor has ext json3 no downloader call happens and the result is the
empty string. -/
theorem c4_format_selection :
    ∀ (dl : String → String → Option (List SubEvent)) (data : List Desc)
      (fmt : String),
      (∀ d ∈ data, d.ext.isSome ∧ d.url.isSome) →
      ((data.find? (fun d => d.ext == some "json3") = none →
          process_transcript dl data fmt = .ok ("", [])) ∧
       (∀ d, data.find? (fun d => d.ext == some "json3") = some d →
          ∃ u s, d.url = some u ∧
            process_transcript dl data fmt = .ok (s, [(u, "json3")]))) := by
  intro dl data fmt hwf
  have hfind := findJson3_wf data (fun d hd => (hwf d hd).1)
  constructor
  · intro hnone
    by_cases hdata : data = []
    · simp [process_transcript, hdata]
    · simp [process_transcript, hdata, hfind, hnone]
  · intro d hd
    have hmem : d ∈ data := List.mem_of_find?_eq_some hd
    obtain ⟨u, hu⟩ := Option.isSome_iff_exists.mp (hwf d hmem).2
    have hdata : data ≠ [] := by
      rintro rfl
      simp at hd
    refine ⟨u, ?_⟩
    simp only [process_transcript, if_neg hdata, hfind, hd, hu]
    cases hDl : dl u "json3" with
    | none => exact ⟨"", by simp [hDl]⟩
    | some events =>
      by_cases hev : events = []
      · exact ⟨"", by simp [hDl, hev]⟩
      · by_cases ht : fmt = "text"
        · exact ⟨renderText events, by simp [hDl, hev, ht]⟩
        · by_cases hm : fmt = "markdown"
          · exact ⟨renderMarkdown events, by simp [hDl, hev, ht, hm]⟩
          · exact ⟨"", by simp [hDl, hev, ht, hm]⟩

/-- C4 witness: the selection applied to the descriptor list of the spec
example, with a downloader that returns nothing. -/
theorem c4_format_selection_witness :
    ∃ u s, (Desc.mk (some "json3") (some "U")).url = some u ∧
      process_transcript (fun _ _ => none)
        [⟨some "srv3", some "A"⟩, ⟨some "json3", some "U"⟩, ⟨some "vtt", some "B"⟩]
        "text" = .ok (s, [(u, "json3")]) :=
  (c4_format_selection (fun _ _ => none)
      [⟨some "srv3", some "A"⟩, ⟨some "json3", some "U"⟩, ⟨some "vtt", some "B"⟩]
      "text" (by decide)).2 ⟨some "json3", some "U"⟩ (by decide)

theorem findJson3_append_err :
    ∀ (pre : List Desc) (d : Desc) (post : List Desc),
      (∀ p ∈ pre, p.ext ≠ none ∧ p.ext ≠ some "json3") → d.ext = none →
      findJson3 (pre ++ d :: post) = .error "KeyError: ext" := by
  intro pre d post
  induction pre with
  | nil =>
    intro _ hd
    simp [findJson3, hd]
  | cons p ps ih =>
    intro hpre hd
    obtain ⟨hne, hnj⟩ := hpre p (List.mem_cons_self p ps)
    cases hpe : p.ext with
    | none => exact absurd hpe hne
    | some e =>
      have hej : e ≠ "json3" := by
        intro h
        exact hnj (by rw [hpe, h])
      simp only [List.cons_append, findJson3, hpe, if_neg hej]
      exact ih (fun q hq => hpre q (List.mem_cons_of_mem p hq)) hd

/-- C9, confirmed.  The selector evaluates the ext bracket lookup of each
descriptor in order until a json3 match, so whenever every descriptor
before some position is non-json3 with an ext key and the descriptor at
that position lacks the ext key, process_transcript raises a KeyError
instead of returning; the error branch is reachable from non-empty
descriptor lists of this shape. -/
theorem c9_keyerror_reachable :
    ∀ (dl : String → String → Option (List SubEvent)) (fmt : String)
      (pre : List Desc) (d : Desc) (post : List Desc),
      (∀ p ∈ pre, p.ext ≠ none ∧ p.ext ≠ some "json3") → d.ext = none →
      process_transcript dl (pre ++ d :: post) fmt = .error "KeyError: ext" := by
  intro dl fmt pre d post hpre hd
  have hne : pre ++ d :: post ≠ [] := by simp
  have hferr := findJson3_append_err pre d post hpre hd
  simp [process_transcript, hne, hferr]

/-- C9 witness: one well-formed non-json3 descriptor followed by a
descriptor without an ext key raises the KeyError. -/
theorem c9_keyerror_reachable_witness :
    process_transcript (fun _ _ => none)
      [⟨some "srv3", some "A"⟩, ⟨none, some "U"⟩] "text" =
      .error "KeyError: ext" :=
  c9_keyerror_reachable (fun _ _ => none) "text"
    [⟨some "srv3", some "A"⟩] ⟨none, some "U"⟩ [] (by decide) rfl

/-- C10, confirmed.  When a json3 descriptor is found, its url is present
and the download yields a non-empty events list, every rendering mode
other than text and markdown falls through both rendering branches and
returns the empty string with the single download call performed; no
error is raised and no other value is produced. -/
theorem c10_unknown_mode_empty :
    ∀ (dl : String → String → Option (List SubEvent)) (data : List Desc)
      (fmt : String) (d : Desc) (u : String) (events : List SubEvent),
      findJson3 data = .ok (some d) → d.url = some u →
      dl u "json3" = some events → events ≠ [] →
      fmt ≠ "text" → fmt ≠ "markdown" →
      process_transcript dl data fmt = .ok ("", [(u, "json3")]) := by
  intro dl data fmt d u events hfind hu hdl hev ht hm
  have hne : data ≠ [] := by
    rintro rfl
    simp [findJson3] at hfind
  simp [process_transcript, hne, hfind, hu, hdl, hev, ht, hm]

/-- C10 witness: a json3 descriptor with a successful non-empty download
and the mode srt returns the empty string. -/
theorem c10_unknown_mode_empty_witness :
    process_transcript
      (fun u f => if u = "U" ∧ f = "json3" then
        some [⟨some 0, some [⟨some "x"⟩]⟩] else none)
      [⟨some "json3", some "U"⟩] "srt" = .ok ("", [("U", "json3")]) :=
  c10_unknown_mode_empty
    (fun u f => if u = "U" ∧ f = "json3" then
      some [⟨some 0, some [⟨some "x"⟩]⟩] else none)
    [⟨some "json3", some "U"⟩] "srt" ⟨some "json3", some "U"⟩ "U"
    [⟨some 0, some [⟨some "x"⟩]⟩]
    (by simp [findJson3]) rfl (by simp) (by decide) (by decide) (by decide)

/-- C5, confirmed.  The metadata assembler is a total function of the
provider response, so it never raises on missing fields; a missing
average_rating, tags or channel_id yields 0, the empty list and none
respectively, and every other missing optional field receives its
documented type-appropriate default in the record. -/
theorem c5_metadata_defaults :
    ∀ v : VideoInfo,
      (v.average_rating = none → (assemble_metadata v).rating = 0) ∧
      (v.tags = none → (assemble_metadata v).keywords = []) ∧
      (v.channel_id = none → (assemble_metadata v).channel_id = none) ∧
      (v.id = none → (assemble_metadata v).video_id = none) ∧
      (v.thumbnail = none → (assemble_metadata v).thumbnail_url = none) ∧
      (v.description = none → (assemble_metadata v).description = "") ∧
      (v.duration = none → (assemble_metadata v).length = 0) ∧
      (v.view_count = none → (assemble_metadata v).views = 0) ∧
      (v.uploader = none → (assemble_metadata v).author = "") ∧
      (v.channel_url = none → (assemble_metadata v).channel_url = none) ∧
      (v.upload_date = none → (assemble_metadata v).publish_date = none) ∧
      (v.age_limit = none → (assemble_metadata v).age_restricted = false) := by
  intro v
  refine ⟨?_, ?_, ?_, ?_, ?_, ?_, ?_, ?_, ?_, ?_, ?_, ?_⟩ <;>
    (intro h; simp [assemble_metadata, h])

/-- C5 witness: the assembler applied to the fully-absent response. -/
theorem c5_metadata_defaults_witness :
    (assemble_metadata ⟨none, none, none, none, none, none, none, none,
        none, none, none, none, none, none⟩).rating = 0 ∧
    (assemble_metadata ⟨none, none, none, none, none, none, none, none,
        none, none, none, none, none, none⟩).keywords = [] ∧
    (assemble_metadata ⟨none, none, none, none, none, none, none, none,
        none, none, none, none, none, none⟩).channel_id = none :=
  ⟨(c5_metadata_defaults ⟨none, none, none, none, none, none, none, none,
      none, none, none, none, none, none⟩).1 rfl,
   (c5_metadata_defaults ⟨none, none, none, none, none, none, none, none,
      none, none, none, none, none, none⟩).2.1 rfl,
   (c5_metadata_defaults ⟨none, none, none, none, none, none, none, none,
      none, none, none, none, none, none⟩).2.2.1 rfl⟩

/-- C6, confirmed.  When the ffmpeg version probe fails the whisper flow
returns the failure record with success false and the installation
guidance message, which names instructions for Ubuntu or Debian, MacOS
and Windows; the action trace is empty, so neither the audio download nor
the transcription-service call happens, and the temporary file state is
untouched. -/
theorem c6_whisper_probe_failure :
    ∀ w : WhisperWorld, w.ffmpeg_ok = false →
      (get_transcription_with_whisper w).1.success = false ∧
      (get_transcription_with_whisper w).1.error = some ffmpegGuidance ∧
      strContains ffmpegGuidance "- On Ubuntu/Debian: sudo apt-get install ffmpeg" = true ∧
      strContains ffmpegGuidance "- On MacOS: brew install ffmpeg" = true ∧
      strContains ffmpegGuidance "- On Windows: Download from https://ffmpeg.org/download.html" = true ∧
      (get_transcription_with_whisper w).2.actions = [] ∧
      (get_transcription_with_whisper w).2.tempExists = w.tempExists0 := by
  intro w h
  refine ⟨?_, ?_, by decide, by decide, by decide, ?_, ?_⟩ <;>
    simp [get_transcription_with_whisper, h]

/-- C6 witness: a world where only the probe fails. -/
theorem c6_whisper_probe_failure_witness :
    (get_transcription_with_whisper
        ⟨false, true, Except.ok (), false, Except.ok "t"⟩).1.success = false ∧
    (get_transcription_with_whisper
        ⟨false, true, Except.ok (), false, Except.ok "t"⟩).1.error =
      some ffmpegGuidance ∧
    strContains ffmpegGuidance "- On Ubuntu/Debian: sudo apt-get install ffmpeg" = true ∧
    strContains ffmpegGuidance "- On MacOS: brew install ffmpeg" = true ∧
    strContains ffmpegGuidance "- On Windows: Download from https://ffmpeg.org/download.html" = true ∧
    (get_transcription_with_whisper
        ⟨false, true, Except.ok (), false, Except.ok "t"⟩).2.actions = [] ∧
    (get_transcription_with_whisper
        ⟨false, true, Except.ok (), false, Except.ok "t"⟩).2.tempExists = true :=
  c6_whisper_probe_failure ⟨false, true, Except.ok (), false, Except.ok "t"⟩ rfl

/-- C7, confirmed.  On every exit path that follows the audio download,
that is whenever the probe passed, the temporary audio file does not
exist when the whisper flow returns: the success path removes it, the
except path removes it when present. -/
theorem c7_temp_cleanup :
    ∀ w : WhisperWorld, w.ffmpeg_ok = true →
      (get_transcription_with_whisper w).2.tempExists = false := by
  intro w h
  cases hd : w.download with
  | error e =>
    cases hb : w.downloadLeavesFile <;>
      simp [get_transcription_with_whisper, h, hd, cleanupTemp, hb]
  | ok u =>
    cases hp : w.parse with
    | error e => simp [get_transcription_with_whisper, h, hd, hp, cleanupTemp]
    | ok t => simp [get_transcription_with_whisper, h, hd, hp]

/-- C7 witness: a world where the download raises and leaves a partial
file behind; the flow still returns with the file removed. -/
theorem c7_temp_cleanup_witness :
    (get_transcription_with_whisper
        ⟨true, true, Except.error "network down", true,
          Except.error "parse"⟩).2.tempExists = false :=
  c7_temp_cleanup
    ⟨true, true, Except.error "network down", true, Except.error "parse"⟩ rfl

/-- C8, confirmed.  The CLI exits with code 1, printing the stated error
message, exactly when the whisper method is requested and the API key is
absent or empty; in every other case it prints a result record and exits
with code 0, and a provider exception on the transcript path is embedded
as an error record in the printed output rather than signalled by the
exit code. -/
theorem c8_cli_exit_codes :
    ∀ (method tfmt : String) (key : Option String) (w : WhisperWorld)
      (dl : String → String → Option (List SubEvent))
      (provider : Except String VideoInfo),
      ((cliMain method tfmt key w dl provider).exitCode = 1 ↔
        (method = "whisper" ∧ envTruthy key = false)) ∧
      (method = "whisper" → envTruthy key = false →
        cliMain method tfmt key w dl provider = ⟨1, .keyError⟩) ∧
      (method = "whisper" → envTruthy key = true →
        cliMain method tfmt key w dl provider =
          ⟨0, .whisperRecord (get_transcription_with_whisper w).1⟩) ∧
      (method ≠ "whisper" →
        cliMain method tfmt key w dl provider =
          ⟨0, .contentRecord (get_youtube_content dl provider tfmt)⟩) ∧
      (∀ e, provider = .error e → method ≠ "whisper" →
        cliMain method tfmt key w dl provider =
          ⟨0, .contentRecord (.errorRecord ("Error processing video: " ++ e))⟩) := by
  intro method tfmt key w dl provider
  refine ⟨?_, ?_, ?_, ?_, ?_⟩
  · cases hk : envTruthy key <;> by_cases hm : method = "whisper" <;>
      simp [cliMain, hm, hk]
  · intro hm hk
    simp [cliMain, hm, hk]
  · intro hm hk
    simp [cliMain, hm, hk]
  · intro hm
    simp [cliMain, hm]
  · intro e he hm
    simp [cliMain, hm, he, get_youtube_content]

/-- C8 witness: the whisper method with no key exits 1 with the error
message. -/
theorem c8_cli_exit_codes_witness :
    cliMain "whisper" "text" none
      ⟨false, false, Except.ok (), false, Except.ok "t"⟩
      (fun _ _ => none) (Except.error "boom") = ⟨1, CliPrint.keyError⟩ :=
  (c8_cli_exit_codes "whisper" "text" none
      ⟨false, false, Except.ok (), false, Except.ok "t"⟩
      (fun _ _ => none) (Except.error "boom")).2.1 rfl rfl
